import Mathlib

/-!
# quick-navigate: cursor and edit history navigation

A shallow embedding of `src/main.js`, the Brackets extension that records the
locations of edits and of cursor moves and offers previous/next navigation
through each of the two histories.

* The module-level variables `cursorHistory`, `editHistory`,
  `posInCursorHistoryArr`, `posInEditHistoryArr` become the fields of `Nav`.
  Arrays are lists (`push` appends at the end); the two positions are JavaScript
  numbers that only ever hold integers, modelled as `Int` so that the guards
  `>= 0` and `< length - 1` keep their meaning.
* The two listeners (`change`, `cursorActivity`) and the four handlers are
  functions on `Nav`.  A handler also returns the call to `changeLocation` it
  makes, if any, so that navigation can be observed.  Each listener takes the
  location `{doc: currentDocument, pos: cursor}` it builds from the host as an
  argument.  An event that the host fires in response to a navigation (the
  `cursorActivity` that follows `setCursorPos`) is a separate event of a run.
* `changeLocation` acts on the host editor (`Host`).  The host functions it uses
  (`DocumentManager.getCurrentDocument`, `EditorManager.getCurrentFullEditor`,
  `FileViewController.openAndSelectDocument`) belong to Brackets, not to this
  repository: their results are fields of `Host` or a parameter.
-/

namespace QuickNavigate

/-! ## Data model -/

/-- The `file` object of a Brackets document; only `fullPath` is read. -/
structure File where
  fullPath : String
deriving DecidableEq, Repr

/-- A Brackets `Document` object.  `ref` stands for the identity of the
JavaScript object: `===` on documents is equality of this structure, and two
distinct objects may carry the same `file.fullPath`. -/
structure Doc where
  ref : Nat
  file : File
deriving DecidableEq, Repr

/-- A cursor position `{line, ch}` as returned by `getCursorPos`. -/
structure Pos where
  line : Nat
  ch : Nat
deriving DecidableEq, Repr

/-- A history entry `{doc: currentDocument, pos: cursor}`. -/
structure Location where
  doc : Doc
  pos : Pos
deriving DecidableEq, Repr

/-- The module-level state of `main.js` (lines 37-40). -/
structure Nav where
  cursorHistory : List Location
  editHistory : List Location
  posInCursorHistoryArr : Int
  posInEditHistoryArr : Int
deriving DecidableEq, Repr

/-- The state at load time: `cursorHistory = []`, `editHistory = []`,
`posInCursorHistoryArr = 0`, `posInEditHistoryArr = 0`. -/
def initialState : Nav :=
  { cursorHistory := [], editHistory := [],
    posInCursorHistoryArr := 0, posInEditHistoryArr := 0 }

/-- The JavaScript array read `arr[i]` for an integer-valued `i`: `none` is
`undefined` (index negative or past the end). -/
def arrayGet (arr : List Location) (i : Int) : Option Location :=
  if i < 0 then none else arr[i.toNat]?

/-- The call to `changeLocation` made by a handler: `none` when the handler
makes no call, `some arg` when it calls `changeLocation(arg)`, where `arg` is
the result of the array read (`none` for `undefined`). -/
abbrev Call := Option (Option Location)

/-! ## `locationsEqual` (lines 142-149) -/

/-- Compares two locations: same `doc.file.fullPath`, same `pos.line`, same
`pos.ch`. -/
def locationsEqual (loc1 loc2 : Location) : Bool :=
  if loc1.doc.file.fullPath = loc2.doc.file.fullPath ∧
      loc1.pos.line = loc2.pos.line ∧
      loc1.pos.ch = loc2.pos.ch then
    true
  else
    false

/-! ## The four navigation handlers (lines 74-108) -/

/-- The handler `handleGotoPrevEdit`. -/
def handleGotoPrevEdit (s : Nav) : Nav × Call :=
  if s.editHistory.length ≠ 0 then
    if s.posInEditHistoryArr > 0 ∧ s.posInEditHistoryArr ≤ (s.editHistory.length : Int) then
      let s1 := { s with posInEditHistoryArr := s.posInEditHistoryArr - 1 }
      (s1, some (arrayGet s1.editHistory s1.posInEditHistoryArr))
    else (s, none)
  else (s, none)

/-- The handler `handleGotoNextEdit`. -/
def handleGotoNextEdit (s : Nav) : Nav × Call :=
  if s.editHistory.length ≠ 0 then
    if s.posInEditHistoryArr ≥ 0 ∧ s.posInEditHistoryArr < (s.editHistory.length : Int) - 1 then
      let s1 := { s with posInEditHistoryArr := s.posInEditHistoryArr + 1 }
      (s1, some (arrayGet s1.editHistory s1.posInEditHistoryArr))
    else (s, none)
  else (s, none)

/-- The handler `handleGotoPrevCursorChange`. -/
def handleGotoPrevCursorChange (s : Nav) : Nav × Call :=
  if s.cursorHistory.length ≠ 0 then
    if s.posInCursorHistoryArr > 0 ∧
        s.posInCursorHistoryArr ≤ (s.cursorHistory.length : Int) then
      let s1 := { s with posInCursorHistoryArr := s.posInCursorHistoryArr - 1 }
      (s1, some (arrayGet s1.cursorHistory s1.posInCursorHistoryArr))
    else (s, none)
  else (s, none)

/-- The handler `handleGotoNextCursorChange`. -/
def handleGotoNextCursorChange (s : Nav) : Nav × Call :=
  if s.cursorHistory.length ≠ 0 then
    if s.posInCursorHistoryArr ≥ 0 ∧
        s.posInCursorHistoryArr < (s.cursorHistory.length : Int) - 1 then
      let s1 := { s with posInCursorHistoryArr := s.posInCursorHistoryArr + 1 }
      (s1, some (arrayGet s1.cursorHistory s1.posInCursorHistoryArr))
    else (s, none)
  else (s, none)

/-! ## The two listeners (lines 159-185) -/

/-- The `change` listener, given the location `{doc: currentDocument, pos: cursor}`
it builds: `editHistory.push(loc); posInEditHistoryArr = editHistory.length - 1`. -/
def change (s : Nav) (loc : Location) : Nav :=
  let editHistory := s.editHistory ++ [loc]
  { s with editHistory := editHistory,
           posInEditHistoryArr := (editHistory.length : Int) - 1 }

/-- The loop `for (i = cursorHistory.length - 1; i >= 0; i--)` of the
`cursorActivity` listener, with `n = i + 1` the number of indices still to
visit.  Returns `true` when the loop body executes `return` (an entry equal to
`loc` was found) and `false` when the loop runs to completion. -/
def cursorHistoryScan (cursorHistory : List Location) (loc : Location) :
    (n : Nat) → n ≤ cursorHistory.length → Bool
  | 0, _ => false
  | n + 1, h =>
    if locationsEqual (cursorHistory.get ⟨n, h⟩) loc then true
    else cursorHistoryScan cursorHistory loc n (Nat.le_of_succ_le h)

/-- The `cursorActivity` listener, given the location
`{doc: currentDocument, pos: cursor}` it builds. -/
def cursorActivity (s : Nav) (loc : Location) : Nav :=
  if cursorHistoryScan s.cursorHistory loc s.cursorHistory.length (Nat.le_refl _) then
    s
  else
    let cursorHistory := s.cursorHistory ++ [loc]
    { s with cursorHistory := cursorHistory,
             posInCursorHistoryArr := (cursorHistory.length : Int) - 1 }

/-! ## Events and runs -/

/-- The events that drive the navigator: the two listeners firing with a
location, and the four toolbar buttons. -/
inductive Event where
  | change (loc : Location)
  | cursorActivity (loc : Location)
  | gotoPrevEdit
  | gotoNextEdit
  | gotoPrevCursorChange
  | gotoNextCursorChange
deriving DecidableEq, Repr

/-- The effect of one event on the navigator state. -/
def step (s : Nav) : Event → Nav
  | .change loc => change s loc
  | .cursorActivity loc => cursorActivity s loc
  | .gotoPrevEdit => (handleGotoPrevEdit s).1
  | .gotoNextEdit => (handleGotoNextEdit s).1
  | .gotoPrevCursorChange => (handleGotoPrevCursorChange s).1
  | .gotoNextCursorChange => (handleGotoNextCursorChange s).1

/-- The state after a finite sequence of events, delivered in order. -/
def run (s : Nav) (evs : List Event) : Nav :=
  evs.foldl step s

/-- The trace of a sequence of handler invocations: for each invocation, in
order, the call to `changeLocation` it makes and the state it leaves. -/
def callTrace (s : Nav) : List (Nav → Nav × Call) → List (Call × Nav)
  | [] => []
  | h :: hs => ((h s).2, (h s).1) :: callTrace (h s).1 hs

/-- The state after `k` successive invocations of one handler. -/
def repeatHandler (handler : Nav → Nav × Call) : Nat → Nav → Nav
  | 0, s => s
  | k + 1, s => repeatHandler handler k (handler s).1

/-- The state after the `change` listener has recorded the locations `locs`, in
order, starting from the initial state. -/
def recordEdits (locs : List Location) : Nav :=
  locs.foldl change initialState

/-- The state after the `cursorActivity` listener has been given the locations
`locs`, in order, starting from the initial state. -/
def recordCursorMoves (locs : List Location) : Nav :=
  locs.foldl cursorActivity initialState

/-! ## Invariants -/

/-- The index invariant of one history log: the index is a valid position of a
non-empty log, and `0` for an empty one. -/
def IndexOk (history : List Location) (pos : Int) : Prop :=
  0 ≤ pos ∧ (pos < (history.length : Int) ∨ pos = 0)

/-- The index invariant of both logs. -/
def Inv (s : Nav) : Prop :=
  IndexOk s.editHistory s.posInEditHistoryArr ∧
    IndexOk s.cursorHistory s.posInCursorHistoryArr

/-- No two entries of the list are `locationsEqual`. -/
def NoDupLoc (l : List Location) : Prop :=
  l.Pairwise (fun a b => locationsEqual a b = false)

/-! ## `changeLocation` and the host editor (lines 52-72) -/

/-- The part of the Brackets host that `changeLocation` touches.
`currentDocument` is the result of `DocumentManager.getCurrentDocument()`
(`none` for `null`); `currentFullEditor` is the cursor position of the editor
returned by `EditorManager.getCurrentFullEditor()` (`none` when it returns
`null`); `setCursorPosCalls` logs the arguments of the `setCursorPos` calls
made so far. -/
structure Host where
  currentDocument : Option Doc
  currentFullEditor : Option Pos
  setCursorPosCalls : List Pos
deriving DecidableEq, Repr

/-- The outcome of the promise returned by
`FileViewController.openAndSelectDocument`: resolved, with the host as it is
when the `done` callback runs, or never resolved (rejected or left pending), in
which case the `done` callback never runs. -/
inductive Promise where
  | resolved (hostAfter : Host)
  | notResolved
deriving DecidableEq, Repr

/-- A JavaScript exception: the `TypeError` of a property access on `undefined`
or `null`. -/
inductive JsError where
  | typeError
deriving DecidableEq, Repr

/-- The two statements `var currentEditor = EditorManager.getCurrentFullEditor();
currentEditor.setCursorPos(desiredPostion);`. -/
def setCursorPos (host : Host) (desiredPostion : Pos) : Except JsError Host :=
  match host.currentFullEditor with
  | none => .error .typeError
  | some _ =>
    .ok { host with currentFullEditor := some desiredPostion,
                    setCursorPosCalls := host.setCursorPosCalls ++ [desiredPostion] }

/-- The function `changeLocation`.  `openAndSelectDocument host path` is the
outcome of the host request to open the file at `path`. -/
def changeLocation (openAndSelectDocument : Host → String → Promise) (host : Host)
    (desiredLocation : Option Location) : Except JsError Host :=
  match desiredLocation with
  | none => .error .typeError
  | some loc =>
    let desiredPostion := loc.pos
    let desiredDocument := loc.doc
    let currentDocument := host.currentDocument
    if currentDocument = some desiredDocument then
      setCursorPos host desiredPostion
    else
      match openAndSelectDocument host desiredDocument.file.fullPath with
      | .resolved hostAfter => setCursorPos hostAfter desiredPostion
      | .notResolved => .ok host

/-- A handler run against the host: the navigator state it leaves, and the
outcome of the `changeLocation` call it makes (the host unchanged when it makes
none). -/
def runHandler (openAndSelectDocument : Host → String → Promise)
    (handler : Nav → Nav × Call) (s : Nav) (host : Host) : Nav × Except JsError Host :=
  let r := handler s
  match r.2 with
  | none => (r.1, .ok host)
  | some arg => (r.1, changeLocation openAndSelectDocument host arg)

/-! ## Sample data -/

/-- A document `D1`. -/
def docD1 : Doc := { ref := 1, file := { fullPath := "/p/a.js" } }

/-- A second document `D2`. -/
def docD2 : Doc := { ref := 2, file := { fullPath := "/p/b.js" } }

/-- Location A: `D1`, line 1, column 0. -/
def locA : Location := { doc := docD1, pos := { line := 1, ch := 0 } }

/-- Location B: `D1`, line 2, column 3. -/
def locB : Location := { doc := docD1, pos := { line := 2, ch := 3 } }

/-- Location C: `D1`, line 5, column 0. -/
def locC : Location := { doc := docD1, pos := { line := 5, ch := 0 } }

/-- Location E: `D2`, line 7, column 1. -/
def locE : Location := { doc := docD2, pos := { line := 7, ch := 1 } }

/-- A host whose current document is `D1`, with an editor whose cursor is at
line 5, column 0, and no `setCursorPos` call made yet. -/
def hostOnD1 : Host :=
  { currentDocument := some docD1, currentFullEditor := some { line := 5, ch := 0 },
    setCursorPosCalls := [] }

/-- A host whose every open request fails: the promise is never resolved. -/
def failingOpen : Host → String → Promise :=
  fun _ _ => Promise.notResolved

/-- A reachable state with both indices strictly inside their histories: A, B,
C recorded in both logs, then one step back in each. -/
def midState : Nav :=
  run initialState
    [.change locA, .change locB, .change locC, .gotoPrevEdit,
     .cursorActivity locA, .cursorActivity locB, .cursorActivity locC,
     .gotoPrevCursorChange]

/-! ## Auxiliary lemmas -/

theorem locationsEqual_iff (a b : Location) :
    locationsEqual a b = true ↔
      a.doc.file.fullPath = b.doc.file.fullPath ∧ a.pos.line = b.pos.line ∧
        a.pos.ch = b.pos.ch := by
  unfold locationsEqual
  split <;> simp_all

theorem locationsEqual_self (a : Location) : locationsEqual a a = true := by
  simp [locationsEqual_iff]

theorem locationsEqual_symm (a b : Location) : locationsEqual a b = locationsEqual b a := by
  cases h : locationsEqual b a
  · cases h2 : locationsEqual a b
    · rfl
    · rw [locationsEqual_iff] at h2
      have : locationsEqual b a = true := by
        rw [locationsEqual_iff]; exact ⟨h2.1.symm, h2.2.1.symm, h2.2.2.symm⟩
      simp [h] at this
  · rw [locationsEqual_iff] at h
    rw [locationsEqual_iff]; exact ⟨h.1.symm, h.2.1.symm, h.2.2.symm⟩

theorem cursorHistoryScan_iff (cursorHistory : List Location) (loc : Location) :
    ∀ (n : Nat) (hn : n ≤ cursorHistory.length),
      cursorHistoryScan cursorHistory loc n hn = true ↔
        ∃ (i : Nat) (hi : i < n),
          locationsEqual (cursorHistory.get ⟨i, Nat.lt_of_lt_of_le hi hn⟩) loc = true := by
  intro n
  induction n with
  | zero => intro hn; simp [cursorHistoryScan]
  | succ n ih =>
    intro hn
    unfold cursorHistoryScan
    constructor
    · intro h
      split at h
      · rename_i heq
        exact ⟨n, Nat.lt_succ_self n, heq⟩
      · obtain ⟨i, hi, hq⟩ := (ih (Nat.le_of_succ_le hn)).1 h
        exact ⟨i, Nat.lt_succ_of_lt hi, hq⟩
    · rintro ⟨i, hi, hq⟩
      split
      · rfl
      · rename_i hne
        have hin : i < n := by
          rcases Nat.lt_succ_iff_lt_or_eq.1 hi with h | h
          · exact h
          · subst h; exact absurd hq hne
        exact (ih (Nat.le_of_succ_le hn)).2 ⟨i, hin, hq⟩

theorem cursorHistoryScan_full (cursorHistory : List Location) (loc : Location) :
    cursorHistoryScan cursorHistory loc cursorHistory.length (Nat.le_refl _) = true ↔
      ∃ e ∈ cursorHistory, locationsEqual e loc = true := by
  rw [cursorHistoryScan_iff]
  constructor
  · rintro ⟨i, hi, hq⟩
    exact ⟨_, List.get_mem _ _ _, hq⟩
  · rintro ⟨e, he, hq⟩
    obtain ⟨⟨i, hi⟩, rfl⟩ := List.mem_iff_get.1 he
    exact ⟨i, hi, hq⟩

theorem inv_initial : Inv initialState := by
  simp [Inv, IndexOk, initialState]

theorem inv_step (s : Nav) (e : Event) (h : Inv s) : Inv (step s e) := by
  obtain ⟨⟨he0, he1⟩, ⟨hc0, hc1⟩⟩ := h
  cases e with
  | change loc =>
    refine ⟨⟨?_, ?_⟩, ⟨hc0, hc1⟩⟩ <;> simp [step, change]
  | cursorActivity loc =>
    simp only [step, cursorActivity]
    split
    · exact ⟨⟨he0, he1⟩, ⟨hc0, hc1⟩⟩
    · refine ⟨⟨he0, he1⟩, ⟨?_, ?_⟩⟩ <;> simp
  | gotoPrevEdit =>
    simp only [step, handleGotoPrevEdit]
    split
    · split
      · rename_i hne hg
        refine ⟨⟨?_, ?_⟩, ⟨hc0, hc1⟩⟩
        · show 0 ≤ s.posInEditHistoryArr - 1
          omega
        · show s.posInEditHistoryArr - 1 < (s.editHistory.length : Int) ∨
            s.posInEditHistoryArr - 1 = 0
          omega
      · exact ⟨⟨he0, he1⟩, ⟨hc0, hc1⟩⟩
    · exact ⟨⟨he0, he1⟩, ⟨hc0, hc1⟩⟩
  | gotoNextEdit =>
    simp only [step, handleGotoNextEdit]
    split
    · split
      · rename_i hne hg
        refine ⟨⟨?_, ?_⟩, ⟨hc0, hc1⟩⟩
        · show 0 ≤ s.posInEditHistoryArr + 1
          omega
        · show s.posInEditHistoryArr + 1 < (s.editHistory.length : Int) ∨
            s.posInEditHistoryArr + 1 = 0
          omega
      · exact ⟨⟨he0, he1⟩, ⟨hc0, hc1⟩⟩
    · exact ⟨⟨he0, he1⟩, ⟨hc0, hc1⟩⟩
  | gotoPrevCursorChange =>
    simp only [step, handleGotoPrevCursorChange]
    split
    · split
      · rename_i hne hg
        refine ⟨⟨he0, he1⟩, ⟨?_, ?_⟩⟩
        · show 0 ≤ s.posInCursorHistoryArr - 1
          omega
        · show s.posInCursorHistoryArr - 1 < (s.cursorHistory.length : Int) ∨
            s.posInCursorHistoryArr - 1 = 0
          omega
      · exact ⟨⟨he0, he1⟩, ⟨hc0, hc1⟩⟩
    · exact ⟨⟨he0, he1⟩, ⟨hc0, hc1⟩⟩
  | gotoNextCursorChange =>
    simp only [step, handleGotoNextCursorChange]
    split
    · split
      · rename_i hne hg
        refine ⟨⟨he0, he1⟩, ⟨?_, ?_⟩⟩
        · show 0 ≤ s.posInCursorHistoryArr + 1
          omega
        · show s.posInCursorHistoryArr + 1 < (s.cursorHistory.length : Int) ∨
            s.posInCursorHistoryArr + 1 = 0
          omega
      · exact ⟨⟨he0, he1⟩, ⟨hc0, hc1⟩⟩
    · exact ⟨⟨he0, he1⟩, ⟨hc0, hc1⟩⟩

theorem inv_run (evs : List Event) : ∀ s, Inv s → Inv (run s evs) := by
  induction evs with
  | nil => intro s h; exact h
  | cons e evs ih => intro s h; exact ih _ (inv_step s e h)

theorem inv_reachable (evs : List Event) : Inv (run initialState evs) :=
  inv_run evs _ inv_initial

theorem arrayGet_of_lt (arr : List Location) (i : Int) (h0 : 0 ≤ i)
    (h1 : i < (arr.length : Int)) :
    ∃ e, arrayGet arr i = some e ∧ arr[i.toNat]? = some e := by
  have hlt : i.toNat < arr.length := by omega
  refine ⟨arr[i.toNat], ?_, ?_⟩
  · simp [arrayGet, List.getElem?_eq_getElem hlt]; omega
  · simp [List.getElem?_eq_getElem hlt]

theorem prevEdit_spec (s : Nav) (h : IndexOk s.editHistory s.posInEditHistoryArr) :
    if 0 < s.posInEditHistoryArr then
      ∃ e, s.editHistory[(s.posInEditHistoryArr - 1).toNat]? = some e ∧
        handleGotoPrevEdit s =
          ({ s with posInEditHistoryArr := s.posInEditHistoryArr - 1 }, some (some e))
    else handleGotoPrevEdit s = (s, none) := by
  obtain ⟨h0, h1⟩ := h
  split
  · rename_i hpos
    obtain ⟨e, he1, he2⟩ := arrayGet_of_lt s.editHistory (s.posInEditHistoryArr - 1)
      (by omega) (by omega)
    refine ⟨e, he2, ?_⟩
    have hlen : s.editHistory.length ≠ 0 := by omega
    have hg : s.posInEditHistoryArr > 0 ∧
        s.posInEditHistoryArr ≤ (s.editHistory.length : Int) := ⟨hpos, by omega⟩
    simp only [handleGotoPrevEdit, if_pos hlen, if_pos hg, he1]
  · rename_i hpos
    have hg : ¬ (s.posInEditHistoryArr > 0 ∧
        s.posInEditHistoryArr ≤ (s.editHistory.length : Int)) := fun hh => hpos hh.1
    simp only [handleGotoPrevEdit, if_neg hg, ite_self]

theorem nextEdit_spec (s : Nav) (h : IndexOk s.editHistory s.posInEditHistoryArr) :
    if s.posInEditHistoryArr < (s.editHistory.length : Int) - 1 then
      ∃ e, s.editHistory[(s.posInEditHistoryArr + 1).toNat]? = some e ∧
        handleGotoNextEdit s =
          ({ s with posInEditHistoryArr := s.posInEditHistoryArr + 1 }, some (some e))
    else handleGotoNextEdit s = (s, none) := by
  obtain ⟨h0, h1⟩ := h
  split
  · rename_i hpos
    obtain ⟨e, he1, he2⟩ := arrayGet_of_lt s.editHistory (s.posInEditHistoryArr + 1)
      (by omega) (by omega)
    refine ⟨e, he2, ?_⟩
    have hlen : s.editHistory.length ≠ 0 := by omega
    have hg : s.posInEditHistoryArr ≥ 0 ∧
        s.posInEditHistoryArr < (s.editHistory.length : Int) - 1 := ⟨h0, hpos⟩
    simp only [handleGotoNextEdit, if_pos hlen, if_pos hg, he1]
  · rename_i hpos
    have hg : ¬ (s.posInEditHistoryArr ≥ 0 ∧
        s.posInEditHistoryArr < (s.editHistory.length : Int) - 1) := fun hh => hpos hh.2
    simp only [handleGotoNextEdit, if_neg hg, ite_self]

theorem prevCursor_spec (s : Nav) (h : IndexOk s.cursorHistory s.posInCursorHistoryArr) :
    if 0 < s.posInCursorHistoryArr then
      ∃ e, s.cursorHistory[(s.posInCursorHistoryArr - 1).toNat]? = some e ∧
        handleGotoPrevCursorChange s =
          ({ s with posInCursorHistoryArr := s.posInCursorHistoryArr - 1 }, some (some e))
    else handleGotoPrevCursorChange s = (s, none) := by
  obtain ⟨h0, h1⟩ := h
  split
  · rename_i hpos
    obtain ⟨e, he1, he2⟩ := arrayGet_of_lt s.cursorHistory (s.posInCursorHistoryArr - 1)
      (by omega) (by omega)
    refine ⟨e, he2, ?_⟩
    have hlen : s.cursorHistory.length ≠ 0 := by omega
    have hg : s.posInCursorHistoryArr > 0 ∧
        s.posInCursorHistoryArr ≤ (s.cursorHistory.length : Int) := ⟨hpos, by omega⟩
    simp only [handleGotoPrevCursorChange, if_pos hlen, if_pos hg, he1]
  · rename_i hpos
    have hg : ¬ (s.posInCursorHistoryArr > 0 ∧
        s.posInCursorHistoryArr ≤ (s.cursorHistory.length : Int)) := fun hh => hpos hh.1
    simp only [handleGotoPrevCursorChange, if_neg hg, ite_self]

theorem nextCursor_spec (s : Nav) (h : IndexOk s.cursorHistory s.posInCursorHistoryArr) :
    if s.posInCursorHistoryArr < (s.cursorHistory.length : Int) - 1 then
      ∃ e, s.cursorHistory[(s.posInCursorHistoryArr + 1).toNat]? = some e ∧
        handleGotoNextCursorChange s =
          ({ s with posInCursorHistoryArr := s.posInCursorHistoryArr + 1 }, some (some e))
    else handleGotoNextCursorChange s = (s, none) := by
  obtain ⟨h0, h1⟩ := h
  split
  · rename_i hpos
    obtain ⟨e, he1, he2⟩ := arrayGet_of_lt s.cursorHistory (s.posInCursorHistoryArr + 1)
      (by omega) (by omega)
    refine ⟨e, he2, ?_⟩
    have hlen : s.cursorHistory.length ≠ 0 := by omega
    have hg : s.posInCursorHistoryArr ≥ 0 ∧
        s.posInCursorHistoryArr < (s.cursorHistory.length : Int) - 1 := ⟨h0, hpos⟩
    simp only [handleGotoNextCursorChange, if_pos hlen, if_pos hg, he1]
  · rename_i hpos
    have hg : ¬ (s.posInCursorHistoryArr ≥ 0 ∧
        s.posInCursorHistoryArr < (s.cursorHistory.length : Int) - 1) := fun hh => hpos hh.2
    simp only [handleGotoNextCursorChange, if_neg hg, ite_self]

theorem cursorActivity_of_fresh (s : Nav) (loc : Location)
    (h : ∀ e ∈ s.cursorHistory, locationsEqual e loc = false) :
    cursorActivity s loc =
      { s with cursorHistory := s.cursorHistory ++ [loc],
               posInCursorHistoryArr := (s.cursorHistory.length : Int) } := by
  have hs : ¬ (cursorHistoryScan s.cursorHistory loc s.cursorHistory.length (Nat.le_refl _)
      = true) := by
    rw [cursorHistoryScan_full]
    rintro ⟨e, he, hq⟩
    rw [h e he] at hq
    exact Bool.noConfusion hq
  unfold cursorActivity
  rw [if_neg hs]
  simp

theorem cursorActivity_of_present (s : Nav) (loc : Location)
    (h : ∃ e ∈ s.cursorHistory, locationsEqual e loc = true) :
    cursorActivity s loc = s := by
  unfold cursorActivity
  rw [if_pos ((cursorHistoryScan_full _ _).2 h)]

theorem recordEdits_eq (locs : List Location) (h : locs ≠ []) :
    recordEdits locs =
      { cursorHistory := [], editHistory := locs,
        posInCursorHistoryArr := 0, posInEditHistoryArr := (locs.length : Int) - 1 } := by
  induction locs using List.reverseRecOn with
  | nil => exact absurd rfl h
  | append_singleton l a ih =>
    unfold recordEdits at ih ⊢
    rw [List.foldl_append]
    simp only [List.foldl_cons, List.foldl_nil]
    by_cases hl : l = []
    · subst hl
      simp [change, initialState]
    · rw [ih hl]
      simp [change]

theorem recordCursorMoves_eq (locs : List Location) (h : locs ≠ [])
    (hp : locs.Pairwise (fun a b => locationsEqual a b = false)) :
    recordCursorMoves locs =
      { cursorHistory := locs, editHistory := [],
        posInCursorHistoryArr := (locs.length : Int) - 1, posInEditHistoryArr := 0 } := by
  induction locs using List.reverseRecOn with
  | nil => exact absurd rfl h
  | append_singleton l a ih =>
    unfold recordCursorMoves at ih ⊢
    rw [List.foldl_append]
    simp only [List.foldl_cons, List.foldl_nil]
    rw [List.pairwise_append] at hp
    obtain ⟨hpl, _, hfresh⟩ := hp
    by_cases hl : l = []
    · subst hl
      rw [List.foldl_nil, cursorActivity_of_fresh _ _ (by simp [initialState])]
      simp [initialState]
    · rw [ih hl hpl, cursorActivity_of_fresh _ _
        (fun e he => hfresh e he a (List.mem_singleton_self a))]
      simp

theorem repeat_prevEdit (k : Nat) : ∀ s : Nav, 0 ≤ s.posInEditHistoryArr →
    s.posInEditHistoryArr < (s.editHistory.length : Int) →
    repeatHandler handleGotoPrevEdit k s =
      { s with posInEditHistoryArr := max (s.posInEditHistoryArr - (k : Int)) 0 } := by
  induction k with
  | zero =>
    intro s h0 h1
    have : max (s.posInEditHistoryArr - ((0 : Nat) : Int)) 0 = s.posInEditHistoryArr := by omega
    rw [this]; rfl
  | succ k ih =>
    intro s h0 h1
    have hs := prevEdit_spec s ⟨h0, Or.inl h1⟩
    show repeatHandler handleGotoPrevEdit k (handleGotoPrevEdit s).1 = _
    split at hs
    · rename_i hpos
      obtain ⟨e, _, he⟩ := hs
      rw [he, ih _ (by show 0 ≤ s.posInEditHistoryArr - 1; omega)
        (by show s.posInEditHistoryArr - 1 < (s.editHistory.length : Int); omega)]
      have : max (s.posInEditHistoryArr - 1 - (k : Int)) 0 =
          max (s.posInEditHistoryArr - ((k + 1 : Nat) : Int)) 0 := by omega
      simp only [this]
    · rename_i hpos
      rw [hs, ih s h0 h1]
      have : max (s.posInEditHistoryArr - (k : Int)) 0 =
          max (s.posInEditHistoryArr - ((k + 1 : Nat) : Int)) 0 := by omega
      rw [this]

theorem repeat_prevCursor (k : Nat) : ∀ s : Nav, 0 ≤ s.posInCursorHistoryArr →
    s.posInCursorHistoryArr < (s.cursorHistory.length : Int) →
    repeatHandler handleGotoPrevCursorChange k s =
      { s with posInCursorHistoryArr := max (s.posInCursorHistoryArr - (k : Int)) 0 } := by
  induction k with
  | zero =>
    intro s h0 h1
    have : max (s.posInCursorHistoryArr - ((0 : Nat) : Int)) 0 = s.posInCursorHistoryArr := by
      omega
    rw [this]; rfl
  | succ k ih =>
    intro s h0 h1
    have hs := prevCursor_spec s ⟨h0, Or.inl h1⟩
    show repeatHandler handleGotoPrevCursorChange k (handleGotoPrevCursorChange s).1 = _
    split at hs
    · rename_i hpos
      obtain ⟨e, _, he⟩ := hs
      rw [he, ih _ (by show 0 ≤ s.posInCursorHistoryArr - 1; omega)
        (by show s.posInCursorHistoryArr - 1 < (s.cursorHistory.length : Int); omega)]
      have : max (s.posInCursorHistoryArr - 1 - (k : Int)) 0 =
          max (s.posInCursorHistoryArr - ((k + 1 : Nat) : Int)) 0 := by omega
      simp only [this]
    · rename_i hpos
      rw [hs, ih s h0 h1]
      have : max (s.posInCursorHistoryArr - (k : Int)) 0 =
          max (s.posInCursorHistoryArr - ((k + 1 : Nat) : Int)) 0 := by omega
      rw [this]

theorem prevEdit_after_record (locs : List Location) (k : Nat)
    (hn : 1 ≤ locs.length) (hk : 1 ≤ k) :
    if k ≤ locs.length - 1 then
      ∃ e, locs[locs.length - k - 1]? = some e ∧
        handleGotoPrevEdit (repeatHandler handleGotoPrevEdit (k - 1) (recordEdits locs)) =
          ({ cursorHistory := [], editHistory := locs, posInCursorHistoryArr := 0,
             posInEditHistoryArr := (locs.length : Int) - 1 - (k : Int) }, some (some e))
    else
      handleGotoPrevEdit (repeatHandler handleGotoPrevEdit (k - 1) (recordEdits locs)) =
        (repeatHandler handleGotoPrevEdit (k - 1) (recordEdits locs), none) := by
  have hne : locs ≠ [] := List.length_pos.1 hn
  rw [recordEdits_eq locs hne,
    repeat_prevEdit (k - 1) _ (by show (0 : Int) ≤ (locs.length : Int) - 1; omega)
      (by show (locs.length : Int) - 1 < (locs.length : Int); omega)]
  have hs := prevEdit_spec
    { cursorHistory := [], editHistory := locs, posInCursorHistoryArr := 0,
      posInEditHistoryArr := max ((locs.length : Int) - 1 - ((k - 1 : Nat) : Int)) 0 }
    ⟨by show (0 : Int) ≤ max _ 0; omega,
     by show max ((locs.length : Int) - 1 - ((k - 1 : Nat) : Int)) 0 < (locs.length : Int) ∨
          max ((locs.length : Int) - 1 - ((k - 1 : Nat) : Int)) 0 = 0
        omega⟩
  simp only at hs ⊢
  split
  · rename_i hk2
    rw [if_pos (by omega)] at hs
    obtain ⟨e, he1, he2⟩ := hs
    have hidx : (max ((locs.length : Int) - 1 - ((k - 1 : Nat) : Int)) 0 - 1).toNat =
        locs.length - k - 1 := by omega
    have hpos : max ((locs.length : Int) - 1 - ((k - 1 : Nat) : Int)) 0 - 1 =
        (locs.length : Int) - 1 - (k : Int) := by omega
    rw [hidx] at he1
    rw [hpos] at he2
    exact ⟨e, he1, he2⟩
  · rename_i hk2
    rw [if_neg (by omega)] at hs
    exact hs

theorem prevCursor_after_record (locs : List Location) (k : Nat)
    (hn : 1 ≤ locs.length) (hk : 1 ≤ k)
    (hp : locs.Pairwise (fun a b => locationsEqual a b = false)) :
    if k ≤ locs.length - 1 then
      ∃ e, locs[locs.length - k - 1]? = some e ∧
        handleGotoPrevCursorChange
            (repeatHandler handleGotoPrevCursorChange (k - 1) (recordCursorMoves locs)) =
          ({ cursorHistory := locs, editHistory := [],
             posInCursorHistoryArr := (locs.length : Int) - 1 - (k : Int),
             posInEditHistoryArr := 0 }, some (some e))
    else
      handleGotoPrevCursorChange
          (repeatHandler handleGotoPrevCursorChange (k - 1) (recordCursorMoves locs)) =
        (repeatHandler handleGotoPrevCursorChange (k - 1) (recordCursorMoves locs), none) := by
  have hne : locs ≠ [] := List.length_pos.1 hn
  rw [recordCursorMoves_eq locs hne hp,
    repeat_prevCursor (k - 1) _ (by show (0 : Int) ≤ (locs.length : Int) - 1; omega)
      (by show (locs.length : Int) - 1 < (locs.length : Int); omega)]
  have hs := prevCursor_spec
    { cursorHistory := locs, editHistory := [],
      posInCursorHistoryArr := max ((locs.length : Int) - 1 - ((k - 1 : Nat) : Int)) 0,
      posInEditHistoryArr := 0 }
    ⟨by show (0 : Int) ≤ max _ 0; omega,
     by show max ((locs.length : Int) - 1 - ((k - 1 : Nat) : Int)) 0 < (locs.length : Int) ∨
          max ((locs.length : Int) - 1 - ((k - 1 : Nat) : Int)) 0 = 0
        omega⟩
  simp only at hs ⊢
  split
  · rename_i hk2
    rw [if_pos (by omega)] at hs
    obtain ⟨e, he1, he2⟩ := hs
    have hidx : (max ((locs.length : Int) - 1 - ((k - 1 : Nat) : Int)) 0 - 1).toNat =
        locs.length - k - 1 := by omega
    have hpos : max ((locs.length : Int) - 1 - ((k - 1 : Nat) : Int)) 0 - 1 =
        (locs.length : Int) - 1 - (k : Int) := by omega
    rw [hidx] at he1
    rw [hpos] at he2
    exact ⟨e, he1, he2⟩
  · rename_i hk2
    rw [if_neg (by omega)] at hs
    exact hs

theorem prev_then_next_edit (s : Nav) (h : IndexOk s.editHistory s.posInEditHistoryArr)
    (hpos : 0 < s.posInEditHistoryArr) :
    ∃ e, s.editHistory[s.posInEditHistoryArr.toNat]? = some e ∧
      handleGotoNextEdit (handleGotoPrevEdit s).1 = (s, some (some e)) := by
  have h1 := prevEdit_spec s h
  rw [if_pos hpos] at h1
  obtain ⟨_, _, h1⟩ := h1
  obtain ⟨h0, hlt⟩ := h
  have h2 := nextEdit_spec { s with posInEditHistoryArr := s.posInEditHistoryArr - 1 }
    ⟨by show 0 ≤ s.posInEditHistoryArr - 1; omega,
     by show s.posInEditHistoryArr - 1 < (s.editHistory.length : Int) ∨
          s.posInEditHistoryArr - 1 = 0
        omega⟩
  simp only at h2
  rw [if_pos (by omega)] at h2
  obtain ⟨e, he, h2⟩ := h2
  rw [sub_add_cancel] at he h2
  exact ⟨e, he, by rw [h1, h2]⟩

theorem next_then_prev_edit (s : Nav) (h : IndexOk s.editHistory s.posInEditHistoryArr)
    (hpos : s.posInEditHistoryArr < (s.editHistory.length : Int) - 1) :
    ∃ e, s.editHistory[s.posInEditHistoryArr.toNat]? = some e ∧
      handleGotoPrevEdit (handleGotoNextEdit s).1 = (s, some (some e)) := by
  have h1 := nextEdit_spec s h
  rw [if_pos hpos] at h1
  obtain ⟨_, _, h1⟩ := h1
  obtain ⟨h0, hlt⟩ := h
  have h2 := prevEdit_spec { s with posInEditHistoryArr := s.posInEditHistoryArr + 1 }
    ⟨by show 0 ≤ s.posInEditHistoryArr + 1; omega,
     by show s.posInEditHistoryArr + 1 < (s.editHistory.length : Int) ∨
          s.posInEditHistoryArr + 1 = 0
        omega⟩
  simp only at h2
  rw [if_pos (by omega)] at h2
  obtain ⟨e, he, h2⟩ := h2
  rw [add_sub_cancel_right] at he h2
  exact ⟨e, he, by rw [h1, h2]⟩

theorem prev_then_next_cursor (s : Nav)
    (h : IndexOk s.cursorHistory s.posInCursorHistoryArr)
    (hpos : 0 < s.posInCursorHistoryArr) :
    ∃ e, s.cursorHistory[s.posInCursorHistoryArr.toNat]? = some e ∧
      handleGotoNextCursorChange (handleGotoPrevCursorChange s).1 = (s, some (some e)) := by
  have h1 := prevCursor_spec s h
  rw [if_pos hpos] at h1
  obtain ⟨_, _, h1⟩ := h1
  obtain ⟨h0, hlt⟩ := h
  have h2 := nextCursor_spec { s with posInCursorHistoryArr := s.posInCursorHistoryArr - 1 }
    ⟨by show 0 ≤ s.posInCursorHistoryArr - 1; omega,
     by show s.posInCursorHistoryArr - 1 < (s.cursorHistory.length : Int) ∨
          s.posInCursorHistoryArr - 1 = 0
        omega⟩
  simp only at h2
  rw [if_pos (by omega)] at h2
  obtain ⟨e, he, h2⟩ := h2
  rw [sub_add_cancel] at he h2
  exact ⟨e, he, by rw [h1, h2]⟩

theorem next_then_prev_cursor (s : Nav)
    (h : IndexOk s.cursorHistory s.posInCursorHistoryArr)
    (hpos : s.posInCursorHistoryArr < (s.cursorHistory.length : Int) - 1) :
    ∃ e, s.cursorHistory[s.posInCursorHistoryArr.toNat]? = some e ∧
      handleGotoPrevCursorChange (handleGotoNextCursorChange s).1 = (s, some (some e)) := by
  have h1 := nextCursor_spec s h
  rw [if_pos hpos] at h1
  obtain ⟨_, _, h1⟩ := h1
  obtain ⟨h0, hlt⟩ := h
  have h2 := prevCursor_spec { s with posInCursorHistoryArr := s.posInCursorHistoryArr + 1 }
    ⟨by show 0 ≤ s.posInCursorHistoryArr + 1; omega,
     by show s.posInCursorHistoryArr + 1 < (s.cursorHistory.length : Int) ∨
          s.posInCursorHistoryArr + 1 = 0
        omega⟩
  simp only at h2
  rw [if_pos (by omega)] at h2
  obtain ⟨e, he, h2⟩ := h2
  rw [add_sub_cancel_right] at he h2
  exact ⟨e, he, by rw [h1, h2]⟩

theorem scenario_ABC (A B C : Location) (hAB : locationsEqual A B = false)
    (hAC : locationsEqual A C = false) (hBC : locationsEqual B C = false) :
    callTrace (recordCursorMoves [A, B, C])
        [handleGotoPrevCursorChange, handleGotoPrevCursorChange, handleGotoPrevCursorChange,
         handleGotoNextCursorChange, handleGotoNextCursorChange, handleGotoNextCursorChange] =
      [(some (some B), { cursorHistory := [A, B, C], editHistory := [],
                         posInCursorHistoryArr := 1, posInEditHistoryArr := 0 }),
       (some (some A), { cursorHistory := [A, B, C], editHistory := [],
                         posInCursorHistoryArr := 0, posInEditHistoryArr := 0 }),
       (none, { cursorHistory := [A, B, C], editHistory := [],
                posInCursorHistoryArr := 0, posInEditHistoryArr := 0 }),
       (some (some B), { cursorHistory := [A, B, C], editHistory := [],
                         posInCursorHistoryArr := 1, posInEditHistoryArr := 0 }),
       (some (some C), { cursorHistory := [A, B, C], editHistory := [],
                         posInCursorHistoryArr := 2, posInEditHistoryArr := 0 }),
       (none, { cursorHistory := [A, B, C], editHistory := [],
                posInCursorHistoryArr := 2, posInEditHistoryArr := 0 })] := by
  rw [recordCursorMoves_eq [A, B, C] (by simp) (by simp [hAB, hAC, hBC])]
  simp [callTrace, handleGotoPrevCursorChange, handleGotoNextCursorChange, arrayGet]

theorem handlers_keep_histories (s : Nav) :
    ((handleGotoPrevEdit s).1.editHistory = s.editHistory ∧
      (handleGotoPrevEdit s).1.cursorHistory = s.cursorHistory) ∧
    ((handleGotoNextEdit s).1.editHistory = s.editHistory ∧
      (handleGotoNextEdit s).1.cursorHistory = s.cursorHistory) ∧
    ((handleGotoPrevCursorChange s).1.editHistory = s.editHistory ∧
      (handleGotoPrevCursorChange s).1.cursorHistory = s.cursorHistory) ∧
    ((handleGotoNextCursorChange s).1.editHistory = s.editHistory ∧
      (handleGotoNextCursorChange s).1.cursorHistory = s.cursorHistory) := by
  refine ⟨⟨?_, ?_⟩, ⟨?_, ?_⟩, ⟨?_, ?_⟩, ⟨?_, ?_⟩⟩
  all_goals
    simp only [handleGotoPrevEdit, handleGotoNextEdit, handleGotoPrevCursorChange,
      handleGotoNextCursorChange]
    split
    · split <;> rfl
    · rfl

theorem locationsEqual_trans (a b c : Location) (h1 : locationsEqual a b = true)
    (h2 : locationsEqual b c = true) : locationsEqual a c = true := by
  rw [locationsEqual_iff] at *
  exact ⟨h1.1.trans h2.1, h1.2.1.trans h2.2.1, h1.2.2.trans h2.2.2⟩

theorem cursorActivity_fresh_of_scan_false (s : Nav) (loc : Location)
    (h : ¬ ∃ e ∈ s.cursorHistory, locationsEqual e loc = true) :
    ∀ e ∈ s.cursorHistory, locationsEqual e loc = false := by
  intro e he
  cases hq : locationsEqual e loc
  · rfl
  · exact absurd ⟨e, he, hq⟩ h

theorem nodup_cursorActivity (s : Nav) (loc : Location) (h : NoDupLoc s.cursorHistory) :
    NoDupLoc (cursorActivity s loc).cursorHistory := by
  by_cases hex : ∃ e ∈ s.cursorHistory, locationsEqual e loc = true
  · rw [cursorActivity_of_present s loc hex]; exact h
  · have hfresh := cursorActivity_fresh_of_scan_false s loc hex
    rw [cursorActivity_of_fresh s loc hfresh]
    show NoDupLoc (s.cursorHistory ++ [loc])
    unfold NoDupLoc
    rw [List.pairwise_append]
    refine ⟨h, List.pairwise_singleton _ _, ?_⟩
    intro a ha b hb
    rw [List.mem_singleton] at hb
    subst hb
    exact hfresh a ha

theorem nodup_step (s : Nav) (e : Event) (h : NoDupLoc s.cursorHistory) :
    NoDupLoc (step s e).cursorHistory := by
  obtain ⟨h1, h2, h3, h4⟩ := handlers_keep_histories s
  cases e with
  | change loc => exact h
  | cursorActivity loc => exact nodup_cursorActivity s loc h
  | gotoPrevEdit => show NoDupLoc (handleGotoPrevEdit s).1.cursorHistory; rw [h1.2]; exact h
  | gotoNextEdit => show NoDupLoc (handleGotoNextEdit s).1.cursorHistory; rw [h2.2]; exact h
  | gotoPrevCursorChange =>
    show NoDupLoc (handleGotoPrevCursorChange s).1.cursorHistory; rw [h3.2]; exact h
  | gotoNextCursorChange =>
    show NoDupLoc (handleGotoNextCursorChange s).1.cursorHistory; rw [h4.2]; exact h

theorem nodup_run (evs : List Event) :
    ∀ s, NoDupLoc s.cursorHistory → NoDupLoc (run s evs).cursorHistory := by
  induction evs with
  | nil => intro s h; exact h
  | cons e evs ih => intro s h; exact ih _ (nodup_step s e h)

theorem nodup_reachable (evs : List Event) :
    NoDupLoc (run initialState evs).cursorHistory :=
  nodup_run evs _ List.Pairwise.nil

theorem nodup_index (l : List Location) (h : NoDupLoc l) (i j : Nat) (e1 e2 : Location)
    (h1 : l[i]? = some e1) (h2 : l[j]? = some e2) (hij : i ≠ j) :
    locationsEqual e1 e2 = false := by
  have key : ∀ (i j : Nat) (e1 e2 : Location), l[i]? = some e1 → l[j]? = some e2 → i < j →
      locationsEqual e1 e2 = false := by
    intro i j e1 e2 h1 h2 hlt
    obtain ⟨hi, rfl⟩ := List.getElem?_eq_some.1 h1
    obtain ⟨hj, rfl⟩ := List.getElem?_eq_some.1 h2
    exact (List.pairwise_iff_getElem.1 h) i j hi hj hlt
  rcases Nat.lt_or_gt_of_ne hij with hlt | hgt
  · exact key i j e1 e2 h1 h2 hlt
  · rw [locationsEqual_symm]; exact key j i e2 e1 h2 h1 hgt

theorem nodup_count_le_one (L : Location) (l : List Location) (h : NoDupLoc l) :
    l.countP (fun e => locationsEqual e L) ≤ 1 := by
  induction l with
  | nil => simp
  | cons a l ih =>
    unfold NoDupLoc at h
    rw [List.pairwise_cons] at h
    obtain ⟨ha, hl⟩ := h
    rw [List.countP_cons]
    by_cases haL : locationsEqual a L = true
    · have hzero : l.countP (fun e => locationsEqual e L) = 0 := by
        rw [List.countP_eq_zero]
        intro b hb hbL
        have hab : locationsEqual a b = true :=
          locationsEqual_trans a L b haL (by rw [locationsEqual_symm]; exact hbL)
        rw [ha b hb] at hab
        exact Bool.noConfusion hab
      rw [hzero, if_pos haL]
    · rw [if_neg haL]
      exact ih hl

theorem recorded_once (s : Nav) (L : Location) (h : NoDupLoc s.cursorHistory) :
    (cursorActivity s L).cursorHistory.countP (fun e => locationsEqual e L) = 1 := by
  have hle := nodup_count_le_one L _ (nodup_cursorActivity s L h)
  have hpos : 0 < (cursorActivity s L).cursorHistory.countP (fun e => locationsEqual e L) := by
    rw [List.countP_pos_iff]
    by_cases hex : ∃ e ∈ s.cursorHistory, locationsEqual e L = true
    · rw [cursorActivity_of_present s L hex]; exact hex
    · rw [cursorActivity_of_fresh s L (cursorActivity_fresh_of_scan_false s L hex)]
      exact ⟨L, by simp, locationsEqual_self L⟩
  omega

theorem cursorActivity_twice (s : Nav) (L : Location) :
    cursorActivity (cursorActivity s L) L = cursorActivity s L := by
  apply cursorActivity_of_present
  by_cases hex : ∃ e ∈ s.cursorHistory, locationsEqual e L = true
  · rw [cursorActivity_of_present s L hex]; exact hex
  · rw [cursorActivity_of_fresh s L (cursorActivity_fresh_of_scan_false s L hex)]
    exact ⟨L, by simp, locationsEqual_self L⟩

theorem arrayGet_mem (arr : List Location) (i : Int) (L : Location)
    (h : arrayGet arr i = some L) : L ∈ arr := by
  unfold arrayGet at h
  split at h
  · exact Option.noConfusion h
  · exact List.getElem?_mem h

theorem prevCursor_then_activity (s s1 : Nav) (L : Location)
    (h : handleGotoPrevCursorChange s = (s1, some (some L))) : cursorActivity s1 L = s1 := by
  unfold handleGotoPrevCursorChange at h
  split at h
  · split at h
    · simp only [Prod.mk.injEq, Option.some.injEq] at h
      obtain ⟨hs1, hL⟩ := h
      subst hs1
      exact cursorActivity_of_present _ L ⟨L, arrayGet_mem _ _ L hL, locationsEqual_self L⟩
    · simp at h
  · simp at h

theorem nextCursor_then_activity (s s1 : Nav) (L : Location)
    (h : handleGotoNextCursorChange s = (s1, some (some L))) : cursorActivity s1 L = s1 := by
  unfold handleGotoNextCursorChange at h
  split at h
  · split at h
    · simp only [Prod.mk.injEq, Option.some.injEq] at h
      obtain ⟨hs1, hL⟩ := h
      subst hs1
      exact cursorActivity_of_present _ L ⟨L, arrayGet_mem _ _ L hL, locationsEqual_self L⟩
    · simp at h
  · simp at h

theorem prevEdit_call_state (s s1 : Nav) (c : Option Location)
    (h : handleGotoPrevEdit s = (s1, some c)) :
    s1 = { s with posInEditHistoryArr := s.posInEditHistoryArr - 1 } := by
  unfold handleGotoPrevEdit at h
  split at h
  · split at h
    · simp only [Prod.mk.injEq] at h
      exact h.1.symm
    · simp at h
  · simp at h

theorem nextEdit_call_state (s s1 : Nav) (c : Option Location)
    (h : handleGotoNextEdit s = (s1, some c)) :
    s1 = { s with posInEditHistoryArr := s.posInEditHistoryArr + 1 } := by
  unfold handleGotoNextEdit at h
  split at h
  · split at h
    · simp only [Prod.mk.injEq] at h
      exact h.1.symm
    · simp at h
  · simp at h

theorem prevCursor_call_state (s s1 : Nav) (c : Option Location)
    (h : handleGotoPrevCursorChange s = (s1, some c)) :
    s1 = { s with posInCursorHistoryArr := s.posInCursorHistoryArr - 1 } := by
  unfold handleGotoPrevCursorChange at h
  split at h
  · split at h
    · simp only [Prod.mk.injEq] at h
      exact h.1.symm
    · simp at h
  · simp at h

theorem nextCursor_call_state (s s1 : Nav) (c : Option Location)
    (h : handleGotoNextCursorChange s = (s1, some c)) :
    s1 = { s with posInCursorHistoryArr := s.posInCursorHistoryArr + 1 } := by
  unfold handleGotoNextCursorChange at h
  split at h
  · split at h
    · simp only [Prod.mk.injEq] at h
      exact h.1.symm
    · simp at h
  · simp at h

theorem changeLocation_failed_open (openAndSelectDocument : Host → String → Promise)
    (host : Host) (loc : Location) (hdoc : host.currentDocument ≠ some loc.doc)
    (hfail : openAndSelectDocument host loc.doc.file.fullPath = Promise.notResolved) :
    changeLocation openAndSelectDocument host (some loc) = Except.ok host := by
  simp only [changeLocation, if_neg hdoc, hfail]

theorem runHandler_failed_open (openAndSelectDocument : Host → String → Promise)
    (handler : Nav → Nav × Call) (s s1 : Nav) (host : Host) (loc : Location)
    (hdoc : host.currentDocument ≠ some loc.doc)
    (hfail : openAndSelectDocument host loc.doc.file.fullPath = Promise.notResolved)
    (h : handler s = (s1, some (some loc))) :
    runHandler openAndSelectDocument handler s host = (s1, Except.ok host) := by
  simp only [runHandler, h, changeLocation_failed_open _ host loc hdoc hfail]

/-! ## The claims -/

/-- C1: in every state reached from the initial state by a finite sequence of
edit-record events, cursor-record events and the four navigation handlers, the
index of each history lies in `[0, length-1]` whenever that history is
non-empty. -/
theorem index_within_bounds (evs : List Event) :
    ((run initialState evs).editHistory ≠ [] →
        0 ≤ (run initialState evs).posInEditHistoryArr ∧
        (run initialState evs).posInEditHistoryArr ≤
          ((run initialState evs).editHistory.length : Int) - 1) ∧
    ((run initialState evs).cursorHistory ≠ [] →
        0 ≤ (run initialState evs).posInCursorHistoryArr ∧
        (run initialState evs).posInCursorHistoryArr ≤
          ((run initialState evs).cursorHistory.length : Int) - 1) := by
  obtain ⟨⟨he0, he1⟩, ⟨hc0, hc1⟩⟩ := inv_reachable evs
  refine ⟨fun h => ⟨he0, ?_⟩, fun h => ⟨hc0, ?_⟩⟩
  · have := List.length_pos.2 h
    omega
  · have := List.length_pos.2 h
    omega

/-- Witness for C1: after three edits and one step back, then two cursor moves,
both histories are non-empty, the edit index is 1 of 3 and the cursor index is
1 of 2. -/
theorem index_within_bounds_witness :
    (run initialState [.change locA, .change locB, .change locC, .gotoPrevEdit,
        .cursorActivity locA, .cursorActivity locB]).editHistory ≠ [] ∧
    (run initialState [.change locA, .change locB, .change locC, .gotoPrevEdit,
        .cursorActivity locA, .cursorActivity locB]).cursorHistory ≠ [] ∧
    (0 ≤ (run initialState [.change locA, .change locB, .change locC, .gotoPrevEdit,
        .cursorActivity locA, .cursorActivity locB]).posInEditHistoryArr ∧
      (run initialState [.change locA, .change locB, .change locC, .gotoPrevEdit,
        .cursorActivity locA, .cursorActivity locB]).posInEditHistoryArr ≤
        ((run initialState [.change locA, .change locB, .change locC, .gotoPrevEdit,
          .cursorActivity locA, .cursorActivity locB]).editHistory.length : Int) - 1) ∧
    (0 ≤ (run initialState [.change locA, .change locB, .change locC, .gotoPrevEdit,
        .cursorActivity locA, .cursorActivity locB]).posInCursorHistoryArr ∧
      (run initialState [.change locA, .change locB, .change locC, .gotoPrevEdit,
        .cursorActivity locA, .cursorActivity locB]).posInCursorHistoryArr ≤
        ((run initialState [.change locA, .change locB, .change locC, .gotoPrevEdit,
          .cursorActivity locA, .cursorActivity locB]).cursorHistory.length : Int) - 1) :=
  ⟨by decide, by decide,
   (index_within_bounds [.change locA, .change locB, .change locC, .gotoPrevEdit,
      .cursorActivity locA, .cursorActivity locB]).1 (by decide),
   (index_within_bounds [.change locA, .change locB, .change locC, .gotoPrevEdit,
      .cursorActivity locA, .cursorActivity locB]).2 (by decide)⟩

/-- C2: in every reachable state, each previous handler (`handleGotoPrevEdit`,
`handleGotoPrevCursorChange`) decrements its index by exactly one and calls
`changeLocation` on the entry at the new index when the index is `> 0`, and
otherwise (index `0` or empty log) changes nothing and makes no call; the stored
sequences are unchanged in both cases. -/
theorem previous_handler_behaviour (evs : List Event) :
    (if 0 < (run initialState evs).posInEditHistoryArr then
      ∃ e, (run initialState evs).editHistory[
              ((run initialState evs).posInEditHistoryArr - 1).toNat]? = some e ∧
        handleGotoPrevEdit (run initialState evs) =
          ({ cursorHistory := (run initialState evs).cursorHistory,
             editHistory := (run initialState evs).editHistory,
             posInCursorHistoryArr := (run initialState evs).posInCursorHistoryArr,
             posInEditHistoryArr := (run initialState evs).posInEditHistoryArr - 1 },
           some (some e))
    else handleGotoPrevEdit (run initialState evs) = (run initialState evs, none)) ∧
    (if 0 < (run initialState evs).posInCursorHistoryArr then
      ∃ e, (run initialState evs).cursorHistory[
              ((run initialState evs).posInCursorHistoryArr - 1).toNat]? = some e ∧
        handleGotoPrevCursorChange (run initialState evs) =
          ({ cursorHistory := (run initialState evs).cursorHistory,
             editHistory := (run initialState evs).editHistory,
             posInCursorHistoryArr := (run initialState evs).posInCursorHistoryArr - 1,
             posInEditHistoryArr := (run initialState evs).posInEditHistoryArr },
           some (some e))
    else handleGotoPrevCursorChange (run initialState evs) = (run initialState evs, none)) :=
  ⟨prevEdit_spec _ (inv_reachable evs).1, prevCursor_spec _ (inv_reachable evs).2⟩

/-- C3: in every reachable state, each next handler (`handleGotoNextEdit`,
`handleGotoNextCursorChange`) increments its index by exactly one and calls
`changeLocation` on the entry at the new index when the index is `< length-1`,
and otherwise (index at the last entry or empty log) changes nothing and makes
no call; the stored sequences are unchanged in both cases. -/
theorem next_handler_behaviour (evs : List Event) :
    (if (run initialState evs).posInEditHistoryArr <
        ((run initialState evs).editHistory.length : Int) - 1 then
      ∃ e, (run initialState evs).editHistory[
              ((run initialState evs).posInEditHistoryArr + 1).toNat]? = some e ∧
        handleGotoNextEdit (run initialState evs) =
          ({ cursorHistory := (run initialState evs).cursorHistory,
             editHistory := (run initialState evs).editHistory,
             posInCursorHistoryArr := (run initialState evs).posInCursorHistoryArr,
             posInEditHistoryArr := (run initialState evs).posInEditHistoryArr + 1 },
           some (some e))
    else handleGotoNextEdit (run initialState evs) = (run initialState evs, none)) ∧
    (if (run initialState evs).posInCursorHistoryArr <
        ((run initialState evs).cursorHistory.length : Int) - 1 then
      ∃ e, (run initialState evs).cursorHistory[
              ((run initialState evs).posInCursorHistoryArr + 1).toNat]? = some e ∧
        handleGotoNextCursorChange (run initialState evs) =
          ({ cursorHistory := (run initialState evs).cursorHistory,
             editHistory := (run initialState evs).editHistory,
             posInCursorHistoryArr := (run initialState evs).posInCursorHistoryArr + 1,
             posInEditHistoryArr := (run initialState evs).posInEditHistoryArr },
           some (some e))
    else handleGotoNextCursorChange (run initialState evs) = (run initialState evs, none)) :=
  ⟨nextEdit_spec _ (inv_reachable evs).1, nextCursor_spec _ (inv_reachable evs).2⟩

/-- C4: for every cursor history, index and location `loc`, the `cursorActivity`
record step leaves the state exactly as it was when some entry of the history,
at any position, has the same file `fullPath`, the same `line` and the same `ch`
as `loc`; otherwise it appends `loc` at the end of the cursor history and sets
the cursor index to the old length (the position of the new last element). -/
theorem cursorActivity_record (s : Nav) (loc : Location) :
    cursorActivity s loc =
      if ∃ e ∈ s.cursorHistory, e.doc.file.fullPath = loc.doc.file.fullPath ∧
          e.pos.line = loc.pos.line ∧ e.pos.ch = loc.pos.ch then
        s
      else
        { cursorHistory := s.cursorHistory ++ [loc],
          editHistory := s.editHistory,
          posInCursorHistoryArr := (s.cursorHistory.length : Int),
          posInEditHistoryArr := s.posInEditHistoryArr } := by
  have key : (cursorHistoryScan s.cursorHistory loc s.cursorHistory.length (Nat.le_refl _)
      = true) ↔ ∃ e ∈ s.cursorHistory, e.doc.file.fullPath = loc.doc.file.fullPath ∧
          e.pos.line = loc.pos.line ∧ e.pos.ch = loc.pos.ch := by
    rw [cursorHistoryScan_full]
    constructor
    · rintro ⟨e, he, hq⟩; exact ⟨e, he, (locationsEqual_iff e loc).1 hq⟩
    · rintro ⟨e, he, hq⟩; exact ⟨e, he, (locationsEqual_iff e loc).2 hq⟩
  unfold cursorActivity
  by_cases hs : cursorHistoryScan s.cursorHistory loc s.cursorHistory.length (Nat.le_refl _)
      = true
  · rw [if_pos hs, if_pos (key.1 hs)]
  · rw [if_neg hs, if_neg (fun h => hs (key.2 h))]
    simp

/-- C5: for every edit history and location `loc`, the `change` record step
appends `loc` to the edit history and sets the edit index to the old length
(the new last position), whatever the history holds; recording the same
location twice in succession lengthens the edit history by exactly 2, and from
the empty history yields length 2. -/
theorem change_record (s : Nav) (loc : Location) :
    change s loc =
      { cursorHistory := s.cursorHistory,
        editHistory := s.editHistory ++ [loc],
        posInCursorHistoryArr := s.posInCursorHistoryArr,
        posInEditHistoryArr := (s.editHistory.length : Int) } ∧
    (change (change s loc) loc).editHistory = s.editHistory ++ [loc, loc] ∧
    (change (change s loc) loc).editHistory.length = s.editHistory.length + 2 ∧
    (change (change initialState loc) loc).editHistory.length = 2 := by
  refine ⟨?_, ?_, ?_, ?_⟩
  · simp [change]
  · simp [change]
  · simp [change]
  · simp [change, initialState]

/-- C6: after `n >= 1` locations have been recorded into an initially empty
history (any locations for the edit history; pairwise non-equal locations for
the cursor history) the log holds them in order with the index at the most
recent one, and repeated previous calls replay them in reverse insertion order:
the `k`-th call, for `1 <= k <= n-1`, moves the index to `n-1-k` and calls
`changeLocation` on the `(n-k)`-th recorded location (`locs[n-k-1]`), and every
call from the `n`-th on changes nothing and makes no call. -/
theorem previous_replays_in_reverse (locs : List Location) (k : Nat)
    (hn : 1 ≤ locs.length) (hk : 1 ≤ k) :
    ((recordEdits locs).editHistory = locs ∧
      (recordEdits locs).posInEditHistoryArr = (locs.length : Int) - 1 ∧
      if k ≤ locs.length - 1 then
        ∃ e, locs[locs.length - k - 1]? = some e ∧
          handleGotoPrevEdit (repeatHandler handleGotoPrevEdit (k - 1) (recordEdits locs)) =
            ({ cursorHistory := [], editHistory := locs, posInCursorHistoryArr := 0,
               posInEditHistoryArr := (locs.length : Int) - 1 - (k : Int) }, some (some e))
      else
        handleGotoPrevEdit (repeatHandler handleGotoPrevEdit (k - 1) (recordEdits locs)) =
          (repeatHandler handleGotoPrevEdit (k - 1) (recordEdits locs), none)) ∧
    (locs.Pairwise (fun a b => locationsEqual a b = false) →
      (recordCursorMoves locs).cursorHistory = locs ∧
      (recordCursorMoves locs).posInCursorHistoryArr = (locs.length : Int) - 1 ∧
      if k ≤ locs.length - 1 then
        ∃ e, locs[locs.length - k - 1]? = some e ∧
          handleGotoPrevCursorChange
              (repeatHandler handleGotoPrevCursorChange (k - 1) (recordCursorMoves locs)) =
            ({ cursorHistory := locs, editHistory := [],
               posInCursorHistoryArr := (locs.length : Int) - 1 - (k : Int),
               posInEditHistoryArr := 0 }, some (some e))
      else
        handleGotoPrevCursorChange
            (repeatHandler handleGotoPrevCursorChange (k - 1) (recordCursorMoves locs)) =
          (repeatHandler handleGotoPrevCursorChange (k - 1) (recordCursorMoves locs),
            none)) := by
  have hne : locs ≠ [] := List.length_pos.1 hn
  refine ⟨⟨?_, ?_, prevEdit_after_record locs k hn hk⟩, fun hp => ⟨?_, ?_, ?_⟩⟩
  · rw [recordEdits_eq locs hne]
  · rw [recordEdits_eq locs hne]
  · rw [recordCursorMoves_eq locs hne hp]
  · rw [recordCursorMoves_eq locs hne hp]
  · exact prevCursor_after_record locs k hn hk hp

/-- Witness for C6: with A, B, C recorded, the second previous call on the
cursor history moves the index to 0 and navigates to A. -/
theorem previous_replays_in_reverse_witness :
    1 ≤ [locA, locB, locC].length ∧ 1 ≤ 2 ∧
    [locA, locB, locC].Pairwise (fun a b => locationsEqual a b = false) ∧
    handleGotoPrevEdit (repeatHandler handleGotoPrevEdit (2 - 1)
        (recordEdits [locA, locB, locC])) =
      ({ cursorHistory := [], editHistory := [locA, locB, locC], posInCursorHistoryArr := 0,
         posInEditHistoryArr := 0 }, some (some locA)) ∧
    handleGotoPrevCursorChange (repeatHandler handleGotoPrevCursorChange (2 - 1)
        (recordCursorMoves [locA, locB, locC])) =
      ({ cursorHistory := [locA, locB, locC], editHistory := [], posInCursorHistoryArr := 0,
         posInEditHistoryArr := 0 }, some (some locA)) := by
  have hp : [locA, locB, locC].Pairwise (fun a b => locationsEqual a b = false) := by decide
  have h := previous_replays_in_reverse [locA, locB, locC] 2 (by decide) (by decide)
  obtain ⟨⟨_, _, h1⟩, h2⟩ := h
  obtain ⟨_, _, h3⟩ := h2 hp
  rw [if_pos (by decide)] at h1 h3
  obtain ⟨e1, he1, h1⟩ := h1
  obtain ⟨e3, he3, h3⟩ := h3
  have e1A : e1 = locA := by
    have : some locA = some e1 := he1
    exact (Option.some.inj this).symm
  have e3A : e3 = locA := by
    have : some locA = some e3 := he3
    exact (Option.some.inj this).symm
  subst e1A
  subst e3A
  exact ⟨by decide, by decide, hp, h1, h3⟩

/-- C7: previous and next are mutually inverse away from the boundaries. In
every reachable state, for each history: when the index `i` is `> 0`, previous
followed by next restores the state (index `i`) and the last call targets entry
`i`; when `i < length-1`, next followed by previous restores the state and the
last call targets entry `i`; no handler changes a stored sequence. Scenario:
after recording cursor locations A, B, C, no two of them `locationsEqual`, the
calls previous, previous, previous, next, next, next navigate to B, A, nothing
(index stays 0), B, C, nothing (index stays 2). -/
theorem previous_next_inverse (evs : List Event) (A B C : Location) :
    (0 < (run initialState evs).posInEditHistoryArr →
      ∃ e, (run initialState evs).editHistory[
              (run initialState evs).posInEditHistoryArr.toNat]? = some e ∧
        handleGotoNextEdit (handleGotoPrevEdit (run initialState evs)).1 =
          (run initialState evs, some (some e))) ∧
    ((run initialState evs).posInEditHistoryArr <
        ((run initialState evs).editHistory.length : Int) - 1 →
      ∃ e, (run initialState evs).editHistory[
              (run initialState evs).posInEditHistoryArr.toNat]? = some e ∧
        handleGotoPrevEdit (handleGotoNextEdit (run initialState evs)).1 =
          (run initialState evs, some (some e))) ∧
    (0 < (run initialState evs).posInCursorHistoryArr →
      ∃ e, (run initialState evs).cursorHistory[
              (run initialState evs).posInCursorHistoryArr.toNat]? = some e ∧
        handleGotoNextCursorChange (handleGotoPrevCursorChange (run initialState evs)).1 =
          (run initialState evs, some (some e))) ∧
    ((run initialState evs).posInCursorHistoryArr <
        ((run initialState evs).cursorHistory.length : Int) - 1 →
      ∃ e, (run initialState evs).cursorHistory[
              (run initialState evs).posInCursorHistoryArr.toNat]? = some e ∧
        handleGotoPrevCursorChange (handleGotoNextCursorChange (run initialState evs)).1 =
          (run initialState evs, some (some e))) ∧
    (((handleGotoPrevEdit (run initialState evs)).1.editHistory =
          (run initialState evs).editHistory ∧
        (handleGotoPrevEdit (run initialState evs)).1.cursorHistory =
          (run initialState evs).cursorHistory) ∧
      ((handleGotoNextEdit (run initialState evs)).1.editHistory =
          (run initialState evs).editHistory ∧
        (handleGotoNextEdit (run initialState evs)).1.cursorHistory =
          (run initialState evs).cursorHistory) ∧
      ((handleGotoPrevCursorChange (run initialState evs)).1.editHistory =
          (run initialState evs).editHistory ∧
        (handleGotoPrevCursorChange (run initialState evs)).1.cursorHistory =
          (run initialState evs).cursorHistory) ∧
      ((handleGotoNextCursorChange (run initialState evs)).1.editHistory =
          (run initialState evs).editHistory ∧
        (handleGotoNextCursorChange (run initialState evs)).1.cursorHistory =
          (run initialState evs).cursorHistory)) ∧
    (locationsEqual A B = false → locationsEqual A C = false → locationsEqual B C = false →
      callTrace (recordCursorMoves [A, B, C])
          [handleGotoPrevCursorChange, handleGotoPrevCursorChange,
           handleGotoPrevCursorChange, handleGotoNextCursorChange,
           handleGotoNextCursorChange, handleGotoNextCursorChange] =
        [(some (some B), { cursorHistory := [A, B, C], editHistory := [],
                           posInCursorHistoryArr := 1, posInEditHistoryArr := 0 }),
         (some (some A), { cursorHistory := [A, B, C], editHistory := [],
                           posInCursorHistoryArr := 0, posInEditHistoryArr := 0 }),
         (none, { cursorHistory := [A, B, C], editHistory := [],
                  posInCursorHistoryArr := 0, posInEditHistoryArr := 0 }),
         (some (some B), { cursorHistory := [A, B, C], editHistory := [],
                           posInCursorHistoryArr := 1, posInEditHistoryArr := 0 }),
         (some (some C), { cursorHistory := [A, B, C], editHistory := [],
                           posInCursorHistoryArr := 2, posInEditHistoryArr := 0 }),
         (none, { cursorHistory := [A, B, C], editHistory := [],
                  posInCursorHistoryArr := 2, posInEditHistoryArr := 0 })]) :=
  ⟨prev_then_next_edit _ (inv_reachable evs).1,
   next_then_prev_edit _ (inv_reachable evs).1,
   prev_then_next_cursor _ (inv_reachable evs).2,
   next_then_prev_cursor _ (inv_reachable evs).2,
   handlers_keep_histories _,
   scenario_ABC A B C⟩

/-- Witness for C7: in `midState` both indices are 1 in histories of length 3;
the A, B, C scenario runs on the sample locations. -/
theorem previous_next_inverse_witness :
    (0 < midState.posInEditHistoryArr ∧
      midState.posInEditHistoryArr < (midState.editHistory.length : Int) - 1 ∧
      0 < midState.posInCursorHistoryArr ∧
      midState.posInCursorHistoryArr < (midState.cursorHistory.length : Int) - 1) ∧
    (locationsEqual locA locB = false ∧ locationsEqual locA locC = false ∧
      locationsEqual locB locC = false) ∧
    (∃ e, midState.editHistory[midState.posInEditHistoryArr.toNat]? = some e ∧
        handleGotoNextEdit (handleGotoPrevEdit midState).1 = (midState, some (some e))) ∧
    (∃ e, midState.editHistory[midState.posInEditHistoryArr.toNat]? = some e ∧
        handleGotoPrevEdit (handleGotoNextEdit midState).1 = (midState, some (some e))) ∧
    (∃ e, midState.cursorHistory[midState.posInCursorHistoryArr.toNat]? = some e ∧
        handleGotoNextCursorChange (handleGotoPrevCursorChange midState).1 =
          (midState, some (some e))) ∧
    (∃ e, midState.cursorHistory[midState.posInCursorHistoryArr.toNat]? = some e ∧
        handleGotoPrevCursorChange (handleGotoNextCursorChange midState).1 =
          (midState, some (some e))) ∧
    (callTrace (recordCursorMoves [locA, locB, locC])
          [handleGotoPrevCursorChange, handleGotoPrevCursorChange,
           handleGotoPrevCursorChange, handleGotoNextCursorChange,
           handleGotoNextCursorChange, handleGotoNextCursorChange]).map Prod.fst =
        [some (some locB), some (some locA), none, some (some locB), some (some locC),
          none] := by
  have h := previous_next_inverse
    [.change locA, .change locB, .change locC, .gotoPrevEdit,
     .cursorActivity locA, .cursorActivity locB, .cursorActivity locC,
     .gotoPrevCursorChange] locA locB locC
  obtain ⟨h1, h2, h3, h4, _, h6⟩ := h
  have g1 : 0 < midState.posInEditHistoryArr := by decide
  have g2 : midState.posInEditHistoryArr < (midState.editHistory.length : Int) - 1 := by
    decide
  have g3 : 0 < midState.posInCursorHistoryArr := by decide
  have g4 : midState.posInCursorHistoryArr < (midState.cursorHistory.length : Int) - 1 := by
    decide
  have d1 : locationsEqual locA locB = false := by decide
  have d2 : locationsEqual locA locC = false := by decide
  have d3 : locationsEqual locB locC = false := by decide
  refine ⟨⟨g1, g2, g3, g4⟩, ⟨d1, d2, d3⟩, h1 g1, h2 g2, h3 g3, h4 g4, ?_⟩
  rw [h6 d1 d2 d3]
  rfl

/-- C8: in every reachable state no two entries of the cursor history at
different positions are `locationsEqual`; recording the same location `L`
twice on the cursor history stores it exactly once (the second record changes
nothing, and exactly one stored entry is `locationsEqual` to `L`), and from the
empty history recording `L` twice yields the one-entry history `[L]`. -/
theorem cursor_history_has_no_duplicates (evs : List Event) (L : Location) :
    (∀ (i j : Nat) (e1 e2 : Location),
      (run initialState evs).cursorHistory[i]? = some e1 →
      (run initialState evs).cursorHistory[j]? = some e2 →
      i ≠ j → locationsEqual e1 e2 = false) ∧
    cursorActivity (cursorActivity (run initialState evs) L) L =
      cursorActivity (run initialState evs) L ∧
    (cursorActivity (cursorActivity (run initialState evs) L) L).cursorHistory.countP
      (fun e => locationsEqual e L) = 1 ∧
    (cursorActivity (cursorActivity initialState L) L).cursorHistory = [L] ∧
    (cursorActivity (cursorActivity initialState L) L).cursorHistory.length = 1 := by
  refine ⟨fun i j e1 e2 h1 h2 hij => nodup_index _ (nodup_reachable evs) i j e1 e2 h1 h2 hij,
    cursorActivity_twice _ L, ?_, ?_, ?_⟩
  · rw [cursorActivity_twice]
    exact recorded_once _ L (nodup_reachable evs)
  · rw [cursorActivity_twice, cursorActivity_of_fresh _ _ (by simp [initialState])]
    simp [initialState]
  · rw [cursorActivity_twice, cursorActivity_of_fresh _ _ (by simp [initialState])]
    simp [initialState]

/-- Witness for C8: after cursor activity at A, B, A, C, B the entries at
positions 0 and 2 of the cursor history (A and C) are not `locationsEqual`. -/
theorem cursor_history_has_no_duplicates_witness :
    (run initialState [.cursorActivity locA, .cursorActivity locB, .cursorActivity locA,
        .cursorActivity locC, .cursorActivity locB]).cursorHistory = [locA, locB, locC] ∧
    locationsEqual locA locC = false :=
  ⟨by decide,
   (cursor_history_has_no_duplicates
      [.cursorActivity locA, .cursorActivity locB, .cursorActivity locA,
        .cursorActivity locC, .cursorActivity locB] locA).1 0 2 locA locC
      (by decide) (by decide) (by decide)⟩

/-- C10: navigating through the cursor history is not double-tracked. In every
reachable state, if `handleGotoPrevCursorChange` or `handleGotoNextCursorChange`
calls `changeLocation` on a location `L`, then a `cursorActivity` event
reporting `L` right afterwards leaves the whole state, in particular the cursor
history and the cursor index, exactly as the navigation left it. -/
theorem navigation_not_double_tracked (evs : List Event) (s1 : Nav) (L : Location) :
    (handleGotoPrevCursorChange (run initialState evs) = (s1, some (some L)) →
      cursorActivity s1 L = s1) ∧
    (handleGotoNextCursorChange (run initialState evs) = (s1, some (some L)) →
      cursorActivity s1 L = s1) :=
  ⟨prevCursor_then_activity _ s1 L, nextCursor_then_activity _ s1 L⟩

/-- Witness for C10: from `midState` (cursor history A, B, C, index 1) previous
navigates to A and leaves index 0; cursor activity at A then changes nothing. -/
theorem navigation_not_double_tracked_witness :
    handleGotoPrevCursorChange midState =
      ({ cursorHistory := [locA, locB, locC], editHistory := [locA, locB, locC],
         posInCursorHistoryArr := 0, posInEditHistoryArr := 1 }, some (some locA)) ∧
    cursorActivity
        { cursorHistory := [locA, locB, locC], editHistory := [locA, locB, locC],
          posInCursorHistoryArr := 0, posInEditHistoryArr := 1 } locA =
      { cursorHistory := [locA, locB, locC], editHistory := [locA, locB, locC],
        posInCursorHistoryArr := 0, posInEditHistoryArr := 1 } :=
  ⟨by decide,
   (navigation_not_double_tracked
      [.change locA, .change locB, .change locC, .gotoPrevEdit,
       .cursorActivity locA, .cursorActivity locB, .cursorActivity locC,
       .gotoPrevCursorChange] _ locA).1 (by decide)⟩

/-- C9, as stated, fails: with edit history `[E, A]` at index 1 and `D1` the
current document, `handleGotoPrevEdit` targets `E` in document `D2`; the open
request fails, no cursor position is applied and nothing is thrown, yet the
edit index is 0 afterwards, not the 1 it was before the call. -/
theorem failed_open_moves_index :
    (handleGotoPrevEdit (run initialState [.change locE, .change locA])).2 =
      some (some locE) ∧
    hostOnD1.currentDocument ≠ some locE.doc ∧
    failingOpen hostOnD1 locE.doc.file.fullPath = Promise.notResolved ∧
    (runHandler failingOpen handleGotoPrevEdit
        (run initialState [.change locE, .change locA]) hostOnD1).2 = Except.ok hostOnD1 ∧
    (run initialState [.change locE, .change locA]).posInEditHistoryArr = 1 ∧
    (runHandler failingOpen handleGotoPrevEdit
        (run initialState [.change locE, .change locA]) hostOnD1).1.posInEditHistoryArr = 0 ∧
    (runHandler failingOpen handleGotoPrevEdit
        (run initialState [.change locE, .change locA]) hostOnD1).1 ≠
      run initialState [.change locE, .change locA] := by
  refine ⟨by decide, by decide, rfl, rfl, by decide, by decide, by decide⟩

/-- C9, amended: when a navigation handler targets a location whose document is
not the current document and the open request is never resolved, the host is
left as it was (no `setCursorPos` call, cursor not applied), no exception is
raised, both history sequences and the index of the other history are as before
the call, and the index of the navigated history keeps the value the handler
gave it before calling `changeLocation` (one less for a previous handler, one
more for a next handler). -/
theorem failed_open_effect (openAndSelectDocument : Host → String → Promise)
    (s s1 : Nav) (host : Host) (loc : Location)
    (hdoc : host.currentDocument ≠ some loc.doc)
    (hfail : openAndSelectDocument host loc.doc.file.fullPath = Promise.notResolved) :
    (handleGotoPrevEdit s = (s1, some (some loc)) →
      runHandler openAndSelectDocument handleGotoPrevEdit s host =
        ({ cursorHistory := s.cursorHistory, editHistory := s.editHistory,
           posInCursorHistoryArr := s.posInCursorHistoryArr,
           posInEditHistoryArr := s.posInEditHistoryArr - 1 }, Except.ok host)) ∧
    (handleGotoNextEdit s = (s1, some (some loc)) →
      runHandler openAndSelectDocument handleGotoNextEdit s host =
        ({ cursorHistory := s.cursorHistory, editHistory := s.editHistory,
           posInCursorHistoryArr := s.posInCursorHistoryArr,
           posInEditHistoryArr := s.posInEditHistoryArr + 1 }, Except.ok host)) ∧
    (handleGotoPrevCursorChange s = (s1, some (some loc)) →
      runHandler openAndSelectDocument handleGotoPrevCursorChange s host =
        ({ cursorHistory := s.cursorHistory, editHistory := s.editHistory,
           posInCursorHistoryArr := s.posInCursorHistoryArr - 1,
           posInEditHistoryArr := s.posInEditHistoryArr }, Except.ok host)) ∧
    (handleGotoNextCursorChange s = (s1, some (some loc)) →
      runHandler openAndSelectDocument handleGotoNextCursorChange s host =
        ({ cursorHistory := s.cursorHistory, editHistory := s.editHistory,
           posInCursorHistoryArr := s.posInCursorHistoryArr + 1,
           posInEditHistoryArr := s.posInEditHistoryArr }, Except.ok host)) := by
  refine ⟨fun h => ?_, fun h => ?_, fun h => ?_, fun h => ?_⟩
  · rw [runHandler_failed_open _ _ s s1 host loc hdoc hfail h, prevEdit_call_state s s1 _ h]
  · rw [runHandler_failed_open _ _ s s1 host loc hdoc hfail h, nextEdit_call_state s s1 _ h]
  · rw [runHandler_failed_open _ _ s s1 host loc hdoc hfail h, prevCursor_call_state s s1 _ h]
  · rw [runHandler_failed_open _ _ s s1 host loc hdoc hfail h, nextCursor_call_state s s1 _ h]

/-- Witness for the amended C9: the failing navigation from edit history
`[E, A]` at index 1 leaves the host as it was and the edit index at 0. -/
theorem failed_open_effect_witness :
    hostOnD1.currentDocument ≠ some locE.doc ∧
    failingOpen hostOnD1 locE.doc.file.fullPath = Promise.notResolved ∧
    handleGotoPrevEdit (run initialState [.change locE, .change locA]) =
      ({ cursorHistory := [], editHistory := [locE, locA],
         posInCursorHistoryArr := 0, posInEditHistoryArr := 0 }, some (some locE)) ∧
    runHandler failingOpen handleGotoPrevEdit
        (run initialState [.change locE, .change locA]) hostOnD1 =
      ({ cursorHistory := [], editHistory := [locE, locA],
         posInCursorHistoryArr := 0, posInEditHistoryArr := 0 }, Except.ok hostOnD1) :=
  ⟨by decide, rfl, by decide,
   (failed_open_effect failingOpen (run initialState [.change locE, .change locA])
      { cursorHistory := [], editHistory := [locE, locA],
        posInCursorHistoryArr := 0, posInEditHistoryArr := 0 }
      hostOnD1 locE (by decide) rfl).1 (by decide)⟩

end QuickNavigate
